import Mathlib

/-!
Shallow embedding of the flutter-wise Android device tooling: the adb path
resolver, the tool-existence heuristic, the device and mDNS service-listing
parsers, and the QR wireless-pairing orchestrator from
`src/sidebar/devices/controller.ts`, `src/core/exec.ts` and the adb path
module.  Asynchronous polling time is abstracted into finite lists of poll
rounds (the wall-clock deadline corresponds to exhausting the list), and
cancellation flags are sampled at exactly the checkpoints where the source
reads them.  String operations are implemented by structural recursion over
the character list so that concrete instances reduce in the kernel; each
models the corresponding JS string method.
-/

namespace FlutterWise

/-! ### JS string primitives over character lists -/

/-- Split a character list at every character satisfying `p`; models JS
`String.prototype.split` with a single-character (or character-class)
separator: `splitOnPred p "a::b" = ["a", "", "b"]` for `p = (· = ':')`. -/
def splitOnPred (p : Char → Bool) : List Char → List (List Char)
  | [] => [[]]
  | c :: cs =>
    match splitOnPred p cs with
    | [] => if p c then [[], []] else [[c]]
    | h :: t => if p c then [] :: h :: t else (c :: h) :: t

/-- Strip leading and trailing whitespace; models JS `trim()` (restricted to
the ASCII whitespace that occurs in tool output). -/
def trimChars (l : List Char) : List Char :=
  ((l.dropWhile Char.isWhitespace).reverse.dropWhile Char.isWhitespace).reverse

/-- JS `trim()` on a string. -/
def jsTrim (s : String) : String := String.mk (trimChars s.data)

/-- JS `split` with a single-character separator, as strings. -/
def jsSplitChar (sep : Char) (s : String) : List String :=
  (splitOnPred (fun c => c = sep) s.data).map String.mk

/-- JS `startsWith`. -/
def jsStartsWith (s pre : String) : Bool :=
  s.data.take pre.data.length == pre.data

/-- Join character-list pieces with a separator (helper for `joinWith`). -/
def joinSepChars (sep : List Char) : List (List Char) → List Char
  | [] => []
  | [x] => x
  | x :: y :: t => x ++ sep ++ joinSepChars sep (y :: t)

/-- JS `Array.prototype.join` with a separator string. -/
def joinWith (sep : String) (xs : List String) : String :=
  String.mk (joinSepChars sep.data (xs.map String.data))

/-- JS substring containment (`String.prototype.includes`). -/
def listHasSub (pat : List Char) : List Char → Bool
  | [] => pat == []
  | c :: cs => ((c :: cs).take pat.length == pat) || listHasSub pat cs

/-- JS `hay.includes(pat)`. -/
def jsIncludes (hay pat : String) : Bool := listHasSub pat.data hay.data

/-- JS `a || b` on strings: the first operand unless it is empty. -/
def jsOr (a b : String) : String := if a = "" then b else a

/-- Whitespace tokens of a line: models JS `line.split(/\s+/)` on an
already-trimmed line (splitting at every whitespace character and dropping
the empty pieces yields exactly the maximal non-whitespace runs). -/
def wsTokens (line : String) : List String :=
  ((splitOnPred Char.isWhitespace line.data).filter (fun t => t ≠ [])).map
    String.mk

/-- Model of `cleanOutput` from the controller: `value.trim().replace(/\s+/g, " ")`.
On a trimmed string, collapsing whitespace runs to single spaces is the same
as re-joining the whitespace tokens with single spaces. -/
def cleanOutput (value : String) : String :=
  joinWith " " (wsTokens (jsTrim value))

/-- Result of running an external command (`ExecResult` in `core/exec.ts`). -/
structure ExecResult where
  stdout : String
  stderr : String
  code : Int
deriving DecidableEq

/-- Model of `commandExists` from `core/exec.ts`, as a function of the results of the
two probe invocations: the `version`-argument run and the bare run. -/
def commandExists (rVersion rBare : ExecResult) : Bool :=
  if rVersion.code = 0 then true
  else decide (0 < rBare.stderr.length) || decide (0 < rBare.stdout.length) ||
    decide (rBare.code ≠ 127)

/-- A device record parsed from `adb devices -l` output
(`AdbDevice` in `sidebar/devices/types.ts`). -/
structure AdbDevice where
  serial : String
  state : String
  model : Option String
  details : Option String
deriving DecidableEq

/-- The `key:value` pairs of the trailing tokens of a device line, in token
order.  A token contributes only when both the part before the first `:` and
the part directly after it are non-empty, mirroring
`const [key, value] = part.split(":"); if (key && value) kv[key] = value;`. -/
def kvPairs (kvParts : List String) : List (String × String) :=
  kvParts.filterMap (fun part =>
    match jsSplitChar ':' part with
    | key :: value :: _ =>
      if key ≠ "" ∧ value ≠ "" then some (key, value) else none
    | _ => none)

/-- Look up a key among the `key:value` tokens; the last binding wins, as
with JS object assignment when a key repeats. -/
def kvLookup (kvParts : List String) (key : String) : Option String :=
  ((kvPairs kvParts).reverse.find? (fun p => p.1 = key)).map (fun p => p.2)

/-- One line of `adb devices -l` output
(the loop body of `parseAdbDevices` in the controller). -/
def parseAdbDeviceLine (rawLine : String) : Option AdbDevice :=
  let line := jsTrim rawLine
  if line = "" ∨ jsStartsWith line "List of devices attached" then none
  else
    match wsTokens line with
    | serial :: state :: kvParts =>
      let joined := joinWith " " kvParts
      some { serial := serial, state := state,
             model := kvLookup kvParts "model",
             details := if joined = "" then none else some joined }
    | _ => none

/-- Model of `parseAdbDevices` from the controller.  The source splits on `/\r?\n/`;
splitting on `'\n'` produces the same lines up to a trailing `'\r'`, which
the per-line `trim` removes. -/
def parseAdbDevices (stdout : String) : List AdbDevice :=
  (jsSplitChar '\n' stdout).filterMap parseAdbDeviceLine

/-- A service record from `adb mdns services` output
(`MdnsService` in `sidebar/devices/types.ts`; the source field `instance`
is a Lean keyword, hence `instanceName`). -/
structure MdnsService where
  instanceName : String
  serviceType : String
  endpoint : String
deriving DecidableEq

/-- One line of `adb mdns services` output
(the loop body of `parseMdnsServices` in the controller). -/
def parseMdnsServiceLine (rawLine : String) : Option MdnsService :=
  let line := jsTrim rawLine
  if line = "" then none
  else
    match wsTokens line with
    | instanceName :: serviceType :: endpoint :: _ =>
      if instanceName = "" ∨ serviceType = "" ∨ endpoint = "" then none
      else some { instanceName := instanceName, serviceType := serviceType,
                  endpoint := endpoint }
    | _ => none

/-- Model of `parseMdnsServices` from the controller. -/
def parseMdnsServices (stdout : String) : List MdnsService :=
  (jsSplitChar '\n' stdout).filterMap parseMdnsServiceLine

/-! ### Spec-side descriptions of the two parsers -/

/-- Written from the spec's words: the model name is the value of the
`key:value` token whose key is `model` (last binding winning, matching JS
object assignment when the key repeats). -/
def modelOfTokens (tokens : List String) : Option String :=
  tokens.reverse.findSome? (fun t =>
    match jsSplitChar ':' t with
    | key :: value :: _ =>
      if key = "model" ∧ value ≠ "" then some value else none
    | _ => none)

/-- Written from the spec's words: one record per line that is non-blank, is
not a header line, and splits on whitespace into at least two tokens; serial
is the first token, state the second, model the value of the `model` token. -/
def adbRecordOfLine_spec (rawLine : String) :
    Option (String × String × Option String) :=
  let line := jsTrim rawLine
  match wsTokens line with
  | serial :: connState :: rest =>
    if line = "" ∨ jsStartsWith line "List of devices attached" then none
    else some (serial, connState, modelOfTokens rest)
  | _ => none

/-- Spec-side device-listing parse: the qualifying lines, in order. -/
def adbRecords_spec (stdout : String) : List (String × String × Option String) :=
  (jsSplitChar '\n' stdout).filterMap adbRecordOfLine_spec

/-- Written from the spec's words: a record exactly for each non-blank line
with at least three whitespace tokens; fields are the first three tokens. -/
def mdnsRecordOfLine_spec (rawLine : String) : Option MdnsService :=
  match wsTokens (jsTrim rawLine) with
  | instanceName :: serviceType :: endpoint :: _ =>
    some { instanceName := instanceName, serviceType := serviceType,
           endpoint := endpoint }
  | _ => none

/-- Spec-side service-listing parse. -/
def mdnsRecords_spec (stdout : String) : List MdnsService :=
  (jsSplitChar '\n' stdout).filterMap mdnsRecordOfLine_spec

/-! ### Parser lemmas -/

theorem wsTokens_ne_empty {line t : String} (h : t ∈ wsTokens line) : t ≠ "" := by
  unfold wsTokens at h
  obtain ⟨piece, hmem, rfl⟩ := List.mem_map.mp h
  have hne : piece ≠ [] := by simpa using (List.mem_filter.mp hmem).2
  intro heq
  exact hne (congrArg String.data heq)

theorem wsTokens_empty : wsTokens "" = [] := by decide

theorem find_filterMap_snd {α β γ : Type} (l : List α) (f : α → Option (β × γ))
    (p : β × γ → Bool) :
    (((l.filterMap f).find? p).map (fun x => x.2))
      = l.findSome? (fun a =>
          (f a).bind (fun b => if p b then some b.2 else none)) := by
  induction l with
  | nil => rfl
  | cons a rest ih =>
    rw [List.findSome?_cons]
    cases h : f a with
    | none =>
      rw [List.filterMap_cons_none h]
      exact ih
    | some b =>
      rw [List.filterMap_cons_some h]
      by_cases hp : p b = true
      · rw [List.find?_cons_of_pos _ hp]
        simp [hp]
      · rw [List.find?_cons_of_neg _ hp]
        simpa [hp] using ih

theorem kvLookup_eq_modelOfTokens (kvParts : List String) :
    kvLookup kvParts "model" = modelOfTokens kvParts := by
  unfold kvLookup kvPairs modelOfTokens
  rw [← List.filterMap_reverse, find_filterMap_snd]
  refine congrArg (fun g => List.findSome? g kvParts.reverse)
    (funext (fun t => ?_))
  rcases h : jsSplitChar ':' t with _ | ⟨k, _ | ⟨v, tl⟩⟩
  · simp [h]
  · simp [h]
  · by_cases hk : k = "model"
    · subst hk
      by_cases hv : v = "" <;> simp [h, hv]
    · by_cases hk0 : k = "" <;> by_cases hv : v = "" <;> simp [h, hk, hk0, hv]

theorem parseAdbDeviceLine_eq_spec (rawLine : String) :
    (parseAdbDeviceLine rawLine).map (fun d => (d.serial, d.state, d.model))
      = adbRecordOfLine_spec rawLine := by
  unfold parseAdbDeviceLine adbRecordOfLine_spec
  by_cases hbl : jsTrim rawLine = "" ∨
      jsStartsWith (jsTrim rawLine) "List of devices attached" = true
  · rcases h : wsTokens (jsTrim rawLine) with _ | ⟨a, _ | ⟨b, rest⟩⟩ <;>
      simp [h, hbl]
  · rcases h : wsTokens (jsTrim rawLine) with _ | ⟨a, _ | ⟨b, rest⟩⟩ <;>
      simp [h, hbl, kvLookup_eq_modelOfTokens]

theorem parseMdnsServiceLine_eq_spec (rawLine : String) :
    parseMdnsServiceLine rawLine = mdnsRecordOfLine_spec rawLine := by
  unfold parseMdnsServiceLine mdnsRecordOfLine_spec
  by_cases hbl : jsTrim rawLine = ""
  · rw [hbl]
    simp [wsTokens_empty]
  · rcases h : wsTokens (jsTrim rawLine) with _ | ⟨a, _ | ⟨b, _ | ⟨c, rest⟩⟩⟩ <;>
      simp [h, hbl]
    refine ⟨?_, ?_, ?_⟩
    · exact wsTokens_ne_empty (h ▸ List.mem_cons_self ..)
    · exact wsTokens_ne_empty (h ▸ List.mem_cons_of_mem _ (List.mem_cons_self ..))
    · exact wsTokens_ne_empty
        (h ▸ List.mem_cons_of_mem _ (List.mem_cons_of_mem _ (List.mem_cons_self ..)))

/-! ### Claim theorems: parsers and the tool-existence check -/

/-- C5: for every device-listing stdout, the parser yields one record per
non-blank, non-header line with at least two whitespace tokens, with serial,
state and model read as the spec describes; lines with fewer tokens are
skipped without aborting the parse.  The spec's example input yields exactly
one record (serial `ABC123`, state `device`, model `Pixel6`). -/
theorem parseAdbDevices_spec_correct :
    (∀ stdout, (parseAdbDevices stdout).map (fun d => (d.serial, d.state, d.model))
        = adbRecords_spec stdout)
  ∧ parseAdbDevices "List of devices attached\nABC123 device model:Pixel6\n"
      = [{ serial := "ABC123", state := "device", model := some "Pixel6",
           details := some "model:Pixel6" }] := by
  constructor
  · intro stdout
    unfold parseAdbDevices adbRecords_spec
    rw [List.map_filterMap]
    exact congrArg (fun g => List.filterMap g (jsSplitChar '\n' stdout))
      (funext parseAdbDeviceLine_eq_spec)
  · decide

/-- C6: for every service-listing stdout, the parser's result contains
exactly the non-blank lines with at least three whitespace tokens, the
record fields being the first three tokens; shorter lines produce nothing. -/
theorem parseMdnsServices_spec_correct :
    (∀ stdout, parseMdnsServices stdout = mdnsRecords_spec stdout)
  ∧ parseMdnsServices "adb-ABC123 _adb-tls-pairing._tcp 192.168.1.5:37000\n incomplete line\n"
      = [{ instanceName := "adb-ABC123", serviceType := "_adb-tls-pairing._tcp",
           endpoint := "192.168.1.5:37000" }] := by
  constructor
  · intro stdout
    unfold parseMdnsServices mdnsRecords_spec
    exact congrArg (fun g => List.filterMap g (jsSplitChar '\n' stdout))
      (funext parseMdnsServiceLine_eq_spec)
  · decide

/-- C10: the device parser skips, by prefix match on the trimmed line, every
line beginning with `List of devices attached`, wherever it occurs and
however many tokens it has; the per-line rule is applied to every line of
the input. -/
theorem header_line_skipped_anywhere :
    (∀ rawLine : String,
      jsStartsWith (jsTrim rawLine) "List of devices attached" = true →
      parseAdbDeviceLine rawLine = none)
  ∧ (∀ stdout, parseAdbDevices stdout
      = (jsSplitChar '\n' stdout).filterMap parseAdbDeviceLine)
  ∧ parseAdbDevices "A1 device\nList of devices attached plus extra\nB2 device"
      = [{ serial := "A1", state := "device", model := none, details := none },
         { serial := "B2", state := "device", model := none, details := none }] := by
  refine ⟨?_, fun _ => rfl, by decide⟩
  intro rawLine h
  unfold parseAdbDeviceLine
  simp [h]

theorem header_line_skipped_anywhere_witness :
    parseAdbDeviceLine "List of devices attached onemore token" = none :=
  header_line_skipped_anywhere.1 _ (by decide)

theorem length_pos_iff_ne_empty (s : String) : 0 < s.length ↔ s ≠ "" := by
  cases s with
  | mk data =>
    cases data with
    | nil => simp [String.length]
    | cons c cs =>
      simp only [String.length, List.length_cons]
      constructor
      · intro _ heq
        have := congrArg String.data heq
        simp at this
      · intro _
        exact Nat.succ_pos _

/-- C9: the tool-existence check returns true exactly when the version-probe
exits 0, or the bare invocation produces non-empty stdout or stderr or an
exit code other than the command-not-found code 127; otherwise false. -/
theorem commandExists_iff (rVersion rBare : ExecResult) :
    commandExists rVersion rBare = true ↔
      (rVersion.code = 0 ∨ rBare.stderr ≠ "" ∨ rBare.stdout ≠ "" ∨
        rBare.code ≠ 127) := by
  unfold commandExists
  by_cases h : rVersion.code = 0
  · simp [h]
  · simp [h, length_pos_iff_ne_empty, or_assoc]

/-! ### QR payload generation and the spec-modelled payload parser -/

/-- Alphabet for the generated pairing service-name suffix. -/
def serviceNameAlphabet : String := "abcdefghijklmnopqrstuvwxyz0123456789"

/-- Alphabet for the generated pairing code (visually ambiguous characters
excluded). -/
def pairCodeAlphabet : String := "ABCDEFGHJKLMNPQRSTUVWXYZ23456789"

/-- Model of `randomFromAlphabet` from the controller, with the random byte stream an
explicit argument: character `i` is `alphabet[bytes[i] % alphabet.length]`. -/
def randomFromAlphabet (len : Nat) (alphabet : String) (bytes : Nat → Nat) :
    String :=
  String.mk ((List.range len).map
    (fun i => alphabet.data.getD (bytes i % alphabet.data.length) 'a'))

/-- The generated pairing service name, `studio-` plus an 8-character
lowercase-alphanumeric suffix. -/
def mkPairServiceName (bytes : Nat → Nat) : String :=
  "studio-" ++ randomFromAlphabet 8 serviceNameAlphabet bytes

/-- The generated 12-character pairing code. -/
def mkPairCode (bytes : Nat → Nat) : String :=
  randomFromAlphabet 12 pairCodeAlphabet bytes

/-- The QR payload template from `connectByQrCode`:
`WIFI:T:ADB;S:<serviceName>;P:<pairCode>;;`. -/
def qrPayload (pairServiceName pairCode : String) : String :=
  "WIFI:T:ADB;S:" ++ pairServiceName ++ ";P:" ++ pairCode ++ ";;"

/-- Drop everything up to and including the first occurrence of `pat`. -/
def dropAfterFirst (pat : List Char) : List Char → Option (List Char)
  | [] => none
  | c :: cs =>
    if (c :: cs).take pat.length = pat then some ((c :: cs).drop pat.length)
    else dropAfterFirst pat cs

/-- Modelled from the spec: the payload parser for input-driven connect
flows is not in the source tree; the spec's wire-format contract requires
extracting a tagged field of the payload "up to the next `;`". -/
def extractField (tag payload : String) : Option String :=
  (dropAfterFirst tag.data payload.data).map
    (fun rest => String.mk (rest.takeWhile (fun ch => ch != ';')))

/-- Modelled from the spec: parse a payload back into the pair
`(pairEndpoint, pairCode)` via extraction of the `S:` and `P:` fields. -/
def parseWifiPayload (payload : String) : Option (String × String) :=
  match extractField "S:" payload, extractField "P:" payload with
  | some s, some p => some (s, p)
  | _, _ => none

/-! ### Round-trip lemmas -/

theorem dropAfterFirst_self (p : Char) (pt rest : List Char) :
    dropAfterFirst (p :: pt) ((p :: pt) ++ rest) = some rest := by
  show dropAfterFirst (p :: pt) (p :: (pt ++ rest)) = some rest
  unfold dropAfterFirst
  rw [if_pos]
  · rw [← List.cons_append, List.drop_left]
  · rw [← List.cons_append, List.take_left]

theorem dropAfterFirst_append (p : Char) (pt l rest : List Char)
    (h : ∀ c ∈ l, c ≠ p) :
    dropAfterFirst (p :: pt) (l ++ rest) = dropAfterFirst (p :: pt) rest := by
  induction l with
  | nil => rfl
  | cons c t ih =>
    have hc : c ≠ p := h c (List.mem_cons_self ..)
    have hcond : ¬((c :: (t ++ rest)).take (p :: pt).length = p :: pt) := by
      intro hcontra
      rw [List.length_cons, List.take_succ_cons] at hcontra
      exact hc (List.cons.injEq .. ▸ hcontra).1
    calc dropAfterFirst (p :: pt) ((c :: t) ++ rest)
        = dropAfterFirst (p :: pt) (t ++ rest) := by
          show dropAfterFirst (p :: pt) (c :: (t ++ rest)) = _
          conv_lhs => rw [dropAfterFirst]
          rw [if_neg hcond]
      _ = dropAfterFirst (p :: pt) rest :=
          ih (fun x hx => h x (List.mem_cons_of_mem _ hx))

theorem takeWhile_until_semi (l r : List Char) (h : ∀ c ∈ l, c ≠ ';') :
    (l ++ ';' :: r).takeWhile (fun ch => ch != ';') = l := by
  induction l with
  | nil => simp [List.takeWhile_cons]
  | cons c t ih =>
    have hc : (c != ';') = true := by
      simpa using h c (List.mem_cons_self ..)
    simp only [List.cons_append, List.takeWhile_cons, hc, if_true]
    rw [ih (fun x hx => h x (List.mem_cons_of_mem _ hx))]

theorem string_mk_data (s : String) : String.mk s.data = s := rfl

theorem extractField_S (s c : String)
    (hs : ∀ ch ∈ s.data, ch ≠ ';' ∧ ch ≠ 'S' ∧ ch ≠ 'P') :
    extractField "S:" (qrPayload s c) = some s := by
  have hdata : (qrPayload s c).data
      = "WIFI:T:ADB;".data ++
          (('S' :: ':' :: []) ++
            (s.data ++ (';' :: ('P' :: ':' :: (c.data ++ (';' :: ';' :: [])))))) := by
    have l1 : ("WIFI:T:ADB;S:" : String).data
        = "WIFI:T:ADB;".data ++ ('S' :: ':' :: []) := by decide
    have l2 : (";P:" : String).data = ';' :: 'P' :: ':' :: [] := by decide
    have l3 : (";;" : String).data = ';' :: ';' :: [] := by decide
    show (((("WIFI:T:ADB;S:" ++ s) ++ ";P:") ++ c) ++ ";;").data = _
    simp only [String.data_append, l1, l2, l3, List.append_assoc]
    simp
  unfold extractField
  have htag : ("S:" : String).data = 'S' :: ':' :: [] := by decide
  rw [htag, hdata, dropAfterFirst_append _ _ _ _ (by decide),
    dropAfterFirst_self]
  have : (s.data ++ (';' :: ('P' :: ':' :: (c.data ++ (';' :: ';' :: []))))).takeWhile
      (fun ch => ch != ';') = s.data :=
    takeWhile_until_semi _ _ (fun ch hch => ((hs ch hch).1))
  rw [Option.map_some', this, string_mk_data]

theorem extractField_P (s c : String)
    (hs : ∀ ch ∈ s.data, ch ≠ ';' ∧ ch ≠ 'S' ∧ ch ≠ 'P')
    (hc : ∀ ch ∈ c.data, ch ≠ ';') :
    extractField "P:" (qrPayload s c) = some c := by
  have hdata : (qrPayload s c).data
      = ("WIFI:T:ADB;S:".data ++ s.data ++ (';' :: [])) ++
          (('P' :: ':' :: []) ++ (c.data ++ (';' :: ';' :: []))) := by
    have l2 : (";P:" : String).data = ';' :: 'P' :: ':' :: [] := by decide
    have l3 : (";;" : String).data = ';' :: ';' :: [] := by decide
    show (((("WIFI:T:ADB;S:" ++ s) ++ ";P:") ++ c) ++ ";;").data = _
    simp only [String.data_append, l2, l3, List.append_assoc]
    simp
  unfold extractField
  have htag : ("P:" : String).data = 'P' :: ':' :: [] := by decide
  have hnoP : ∀ ch ∈ "WIFI:T:ADB;S:".data ++ s.data ++ (';' :: []), ch ≠ 'P' := by
    intro ch hch
    rcases List.mem_append.mp hch with hch' | hch'
    · rcases List.mem_append.mp hch' with hch'' | hch''
      · exact (by decide :
          ∀ x ∈ ("WIFI:T:ADB;S:" : String).data, x ≠ 'P') ch hch''
      · exact (hs ch hch'').2.2
    · intro heq
      simp at hch'
      rw [hch'] at heq
      exact absurd heq (by decide)
  rw [htag, hdata, dropAfterFirst_append _ _ _ _ hnoP, dropAfterFirst_self]
  rw [Option.map_some', takeWhile_until_semi _ _ hc, string_mk_data]

theorem getD_mem (l : List Char) (i : Nat) (d : Char) (h : i < l.length) :
    l.getD i d ∈ l := by
  induction l generalizing i with
  | nil => simp at h
  | cons c cs ih =>
    cases i with
    | zero => exact List.mem_cons_self ..
    | succ j =>
      rw [List.getD_cons_succ]
      exact List.mem_cons_of_mem _ (ih j (by simpa using Nat.lt_of_succ_lt_succ h))

theorem randomFromAlphabet_chars (len : Nat) (alphabet : String)
    (bytes : Nat → Nat) (halpha : alphabet.data ≠ []) :
    ∀ ch ∈ (randomFromAlphabet len alphabet bytes).data, ch ∈ alphabet.data := by
  intro ch hch
  unfold randomFromAlphabet at hch
  obtain ⟨i, _, rfl⟩ := List.mem_map.mp hch
  exact getD_mem _ _ _
    (Nat.mod_lt _ (List.length_pos.mpr halpha))

theorem mkPairServiceName_chars (bytes : Nat → Nat) :
    ∀ ch ∈ (mkPairServiceName bytes).data, ch ≠ ';' ∧ ch ≠ 'S' ∧ ch ≠ 'P' := by
  intro ch hch
  unfold mkPairServiceName at hch
  rw [String.data_append] at hch
  rcases List.mem_append.mp hch with h | h
  · exact (by decide :
      ∀ x ∈ ("studio-" : String).data, x ≠ ';' ∧ x ≠ 'S' ∧ x ≠ 'P') ch h
  · exact (by decide :
      ∀ x ∈ serviceNameAlphabet.data, x ≠ ';' ∧ x ≠ 'S' ∧ x ≠ 'P') ch
      (randomFromAlphabet_chars 8 serviceNameAlphabet bytes (by decide) ch h)

theorem mkPairCode_chars (bytes : Nat → Nat) :
    ∀ ch ∈ (mkPairCode bytes).data, ch ≠ ';' := by
  intro ch hch
  exact (by decide : ∀ x ∈ pairCodeAlphabet.data, x ≠ ';') ch
    (randomFromAlphabet_chars 12 pairCodeAlphabet bytes (by decide) ch hch)

/-- C7: for every generated service name and pairing code, the orchestrator's
payload has the exact `WIFI:T:ADB;S:<name>;P:<code>;;` form by construction,
and the spec's field extraction (`S:` and `P:` fields up to the next `;`)
recovers exactly the embedded name and code. -/
theorem qr_payload_roundtrip (b1 b2 : Nat → Nat) :
    parseWifiPayload (qrPayload (mkPairServiceName b1) (mkPairCode b2))
      = some (mkPairServiceName b1, mkPairCode b2) := by
  unfold parseWifiPayload
  rw [extractField_S _ _ (mkPairServiceName_chars b1),
    extractField_P _ _ (mkPairServiceName_chars b1) (mkPairCode_chars b2)]

/-! ### adb path resolution -/

/-- The inputs `resolveAdbPath` reads: the two SDK-root environment
variables, the two IDE configuration values, the home directory, the
platform identifier, path joining (Node `path.join`, kept abstract) and the
filesystem existence check. -/
structure AdbEnv where
  androidSdkRoot : Option String
  androidHome : Option String
  androidCfgSdkPath : Option String
  flutterCfgSdkPath : Option String
  home : Option String
  platform : String
  joinPath : List String → String
  fileExists : String → Bool

/-- Model of `adbName` from the adb path module. -/
def adbName (env : AdbEnv) : String :=
  if env.platform = "win32" then "adb.exe" else "adb"

/-- The ordered candidate list that `resolveAdbPath` builds: the two
environment variables, the two IDE configuration values, then (macOS only)
the conventional default location. -/
def adbCandidates (env : AdbEnv) : List (Option String) :=
  [env.androidSdkRoot, env.androidHome, env.androidCfgSdkPath,
   env.flutterCfgSdkPath] ++
    (if env.platform = "darwin" then
      [some (env.joinPath [env.home.getD "", "Library/Android/sdk"])]
    else [])

/-- Model of `resolveAdbPath` from the adb path module: the first candidate whose
joined `<root>/platform-tools/<adbName>` exists wins; otherwise the bare
name `"adb"`.  The JS `if (!sdkRoot) continue` skips both missing and
empty candidates. -/
def resolveAdbPath (env : AdbEnv) : String :=
  ((adbCandidates env).findSome? (fun sdkRoot =>
    match sdkRoot with
    | none => none
    | some root =>
      if root = "" then none
      else
        if env.fileExists (env.joinPath [root, "platform-tools", adbName env])
        then some (env.joinPath [root, "platform-tools", adbName env])
        else none)).getD "adb"

/-- Written from the spec's words: the candidate SDK roots in resolution
order — SDK-root environment variables, IDE configuration values, then the
macOS-only conventional default.  A candidate root is one that is set and
non-empty. -/
def adbRoots_spec (env : AdbEnv) : List String :=
  (([env.androidSdkRoot, env.androidHome, env.androidCfgSdkPath,
     env.flutterCfgSdkPath].filterMap id).filter (fun r => r ≠ "")) ++
    (if env.platform = "darwin" then
      [env.joinPath [env.home.getD "", "Library/Android/sdk"]].filter
        (fun r => r ≠ "")
    else [])

/-- Written from the spec's words: the first candidate root whose joined
platform-tools executable path exists wins; bare `"adb"` when no candidate
path exists. -/
def resolveAdbPath_spec (env : AdbEnv) : String :=
  match (adbRoots_spec env).find? (fun root =>
      env.fileExists (env.joinPath [root, "platform-tools", adbName env])) with
  | some root => env.joinPath [root, "platform-tools", adbName env]
  | none => "adb"

theorem findSome?_guarded (l : List (Option String)) (q : String → Bool)
    (g : String → String) :
    (l.findSome? (fun c =>
      match c with
      | none => none
      | some root =>
        if root = "" then none
        else if q root then some (g root) else none))
    = (((l.filterMap id).filter (fun r => r ≠ "")).find? q).map g := by
  induction l with
  | nil => rfl
  | cons c t ih =>
    cases c with
    | none =>
      rw [List.findSome?_cons]
      simpa [List.filterMap_cons] using ih
    | some root =>
      by_cases hroot : root = ""
      · subst hroot
        rw [List.findSome?_cons]
        simpa [List.filterMap_cons, List.filter_cons] using ih
      · by_cases hq : q root = true
        · rw [List.findSome?_cons]
          simp [List.filterMap_cons, List.filter_cons, hroot, hq]
        · rw [List.findSome?_cons]
          have hq' : q root = false := by
            cases hqv : q root
            · rfl
            · exact absurd hqv hq
          simpa [List.filterMap_cons, List.filter_cons, hroot, hq'] using ih

/-- C8: the adb path resolver returns the first candidate SDK root — in the
order: the two SDK-root environment variables, the two IDE configuration
values, then (macOS only) the conventional default — joined with the
platform-tools subpath and the executable name, for which the joined path
exists; when no candidate path exists it returns the bare name `"adb"` and
never fails. -/
theorem resolveAdbPath_resolution_order :
    (∀ env : AdbEnv, resolveAdbPath env = resolveAdbPath_spec env)
  ∧ (∀ env : AdbEnv, (∀ path, env.fileExists path = false) →
      resolveAdbPath env = "adb") := by
  constructor
  · intro env
    have hdar : (((if env.platform = "darwin" then
          [some (env.joinPath [env.home.getD "", "Library/Android/sdk"])]
        else []).filterMap id).filter (fun r => r ≠ ""))
        = (if env.platform = "darwin" then
            [env.joinPath [env.home.getD "", "Library/Android/sdk"]].filter
              (fun r => r ≠ "")
          else []) := by
      by_cases hp : env.platform = "darwin" <;> simp [hp, List.filterMap_cons]
    have hlist : ((adbCandidates env).filterMap id).filter (fun r => r ≠ "")
        = adbRoots_spec env := by
      unfold adbCandidates adbRoots_spec
      rw [List.filterMap_append, List.filter_append, hdar]
    unfold resolveAdbPath
    rw [findSome?_guarded _
      (fun root => env.fileExists (env.joinPath [root, "platform-tools", adbName env]))
      (fun root => env.joinPath [root, "platform-tools", adbName env]), hlist]
    unfold resolveAdbPath_spec
    cases hfind : (adbRoots_spec env).find? (fun root =>
        env.fileExists (env.joinPath [root, "platform-tools", adbName env])) with
    | none => rfl
    | some root => rfl
  · intro env hnone
    unfold resolveAdbPath
    have : ((adbCandidates env).findSome? (fun c =>
        match c with
        | none => none
        | some root =>
          if root = "" then none
          else
            if env.fileExists (env.joinPath [root, "platform-tools", adbName env])
            then some (env.joinPath [root, "platform-tools", adbName env])
            else none)) = none := by
      rw [List.findSome?_eq_none_iff]
      intro c _
      cases c with
      | none => rfl
      | some root =>
        by_cases hroot : root = "" <;> simp [hroot, hnone]
    rw [this]
    rfl

/-- A concrete environment with no existing filesystem paths. -/
def sampleAdbEnv : AdbEnv :=
  { androidSdkRoot := some "/sdk", androidHome := none,
    androidCfgSdkPath := none, flutterCfgSdkPath := none,
    home := none, platform := "linux",
    joinPath := fun parts => joinWith "/" parts,
    fileExists := fun _ => false }

theorem resolveAdbPath_resolution_order_witness :
    resolveAdbPath sampleAdbEnv = "adb" :=
  resolveAdbPath_resolution_order.2 sampleAdbEnv (fun _ => rfl)

/-! ### The QR pairing orchestrator

The controller's session objects are identified by allocation order
(`Nat` ids standing for JS reference identity); `qrSession` is the
controller's current-session reference and `qrPairing` its published state.
The externally visible actions of `connectByQrCode` are recorded as an
ordered effect trace. -/

/-- The published QR pairing state
(`DevicesQrPairingState` in `sidebar/devices/types.ts`). -/
structure DevicesQrPairingState where
  payload : String
  pairServiceName : String
  pairCode : String
  statusMessage : String
deriving DecidableEq

/-- An externally visible action of the orchestrator, in program order. -/
inductive Effect where
  | genCredentials
  | publish (state : DevicesQrPairingState)
  | updateStatus (message : String)
  | clearPublished
  | setCancelled (sessionId : Nat)
  | exec (args : List String)
  | showInfo (message : String)
  | showWarning (message : String)
  | showError (message : String)
deriving DecidableEq

/-- The controller's session-related fields: `flags i` is session `i`'s
`cancelled` flag, `current` is the `qrSession` reference, `published` the
`qrPairing` snapshot; `nextId` allocates fresh session identities. -/
structure SessionsState where
  nextId : Nat
  flags : Nat → Bool
  current : Option Nat
  published : Option DevicesQrPairingState

/-- Model of `isQrSessionActive` from the controller:
`this.qrSession === session && !session.cancelled`. -/
def IsActive (st : SessionsState) (s : Nat) : Prop :=
  st.current = some s ∧ st.flags s = false

instance (st : SessionsState) (s : Nat) : Decidable (IsActive st s) := by
  unfold IsActive
  infer_instance

/-- Model of `cancelQrPairing` from the controller: set the current session's
cancelled flag (when one exists), then clear the published state. -/
def cancelQrPairing (st : SessionsState) : SessionsState × List Effect :=
  match st.current with
  | some id =>
    ({ st with flags := fun j => if j = id then true else st.flags j,
               published := none },
     [Effect.setCancelled id, Effect.clearPublished])
  | none => ({ st with published := none }, [Effect.clearPublished])

/-- The status message published when a QR session starts. -/
def scanPromptMsg : String :=
  "Open Android Wireless debugging and scan this QR code to start pairing."

/-- The published state of a fresh session for the given byte streams. -/
def initialQrPairingState (b1 b2 : Nat → Nat) : DevicesQrPairingState :=
  { payload := qrPayload (mkPairServiceName b1) (mkPairCode b2),
    pairServiceName := mkPairServiceName b1,
    pairCode := mkPairCode b2,
    statusMessage := scanPromptMsg }

/-- The session-starting prefix of `connectByQrCode`: cancel any existing
session, then generate credentials, install the new session object and
publish its state. -/
def startQrSession (st : SessionsState) (b1 b2 : Nat → Nat) :
    SessionsState × List Effect :=
  let cancelStep := if st.current.isSome then cancelQrPairing st else (st, [])
  let st1 := cancelStep.1
  let ps := initialQrPairingState b1 b2
  let newId := st1.nextId
  ({ nextId := newId + 1,
     flags := fun j => if j = newId then false else st1.flags j,
     current := some newId,
     published := some ps },
   cancelStep.2 ++ [Effect.genCredentials, Effect.publish ps])

/-! ### The polling loops and the flow trace -/

/-- The two mDNS service-type markers from the controller. -/
def pairingServiceMarker : String := "_adb-tls-pairing._tcp"

/-- The connect-capable service-type marker. -/
def connectServiceMarker : String := "_adb-tls-connect._tcp"

/-- Check `service.serviceType.includes(ADB_TLS_PAIRING_SERVICE)`. -/
def isPairingType (s : MdnsService) : Bool :=
  jsIncludes s.serviceType pairingServiceMarker

/-- Check `service.serviceType.includes(ADB_TLS_CONNECT_SERVICE)`. -/
def isConnectType (s : MdnsService) : Bool :=
  jsIncludes s.serviceType connectServiceMarker

/-- The `services.find(...)` of the scan loop: first service whose instance
name equals the generated service name and whose type is pairing-capable. -/
def findPairingService (pairServiceName : String) (services : List MdnsService) :
    Option MdnsService :=
  services.find? (fun s =>
    s.instanceName = pairServiceName && isPairingType s)

/-- One iteration of a polling loop: the session-activity value read at the
loop head (`!isCancelled()`), and the services the poll then observes. -/
structure PollRound where
  active : Bool
  services : List MdnsService
deriving DecidableEq

/-- Model of `waitForPairingEndpoint` from the controller, over an abstract round
list: each round checks cancellation at the top, runs one `mdns services`
listing, and returns the matching service's endpoint if present; an
exhausted list is the scan deadline, and cancellation returns nothing
without further listings. -/
def waitForPairingEndpoint (pairServiceName : String) :
    List PollRound → Option String × List Effect
  | [] => (none, [])
  | r :: rest =>
    if r.active then
      match findPairingService pairServiceName r.services with
      | some s => (some s.endpoint, [Effect.exec ["mdns", "services"]])
      | none =>
        let next := waitForPairingEndpoint pairServiceName rest
        (next.1, Effect.exec ["mdns", "services"] :: next.2)
    else (none, [])

/-- How the bounded part of the connect-discovery loop ended. -/
inductive LoopExit where
  | found (endpoint : String)
  | cancelled
  | deadline
deriving DecidableEq

/-- The in-deadline part of `waitForConnectEndpoint`: per round, check
cancellation, list services, and return the first connect-type endpoint not
in the pre-pairing snapshot. -/
def connectPollRounds (known : List String) :
    List PollRound → LoopExit × List Effect
  | [] => (LoopExit.deadline, [])
  | r :: rest =>
    if r.active then
      match (r.services.filter isConnectType).find?
          (fun s => !(known.contains s.endpoint)) with
      | some s => (LoopExit.found s.endpoint, [Effect.exec ["mdns", "services"]])
      | none =>
        let next := connectPollRounds known rest
        (next.1, Effect.exec ["mdns", "services"] :: next.2)
    else (LoopExit.cancelled, [])

/-- Model of `waitForConnectEndpoint` from the controller: the bounded loop, then —
only when the deadline elapsed and the session is still active — one final
listing, whose unique connect-type service (if exactly one) is used. -/
def waitForConnectEndpoint (known : List String) (rounds : List PollRound)
    (activeAtFinalCheck : Bool) (finalServices : List MdnsService) :
    Option String × List Effect :=
  match (connectPollRounds known rounds).1 with
  | LoopExit.found ep => (some ep, (connectPollRounds known rounds).2)
  | LoopExit.cancelled => (none, (connectPollRounds known rounds).2)
  | LoopExit.deadline =>
    if activeAtFinalCheck then
      match finalServices.filter isConnectType with
      | [s] => (some s.endpoint,
          (connectPollRounds known rounds).2 ++ [Effect.exec ["mdns", "services"]])
      | _ => (none,
          (connectPollRounds known rounds).2 ++ [Effect.exec ["mdns", "services"]])
    else (none, (connectPollRounds known rounds).2)

/-- Model of `runAdbConnect` from the controller, as the effects it produces given
the connect invocation's result. -/
def runAdbConnect (endpoint : String) (result : ExecResult) : List Effect :=
  let output := jsOr (cleanOutput result.stdout) (cleanOutput result.stderr)
  Effect.exec ["connect", endpoint] ::
    (if result.code ≠ 0 then
      [Effect.showError
        ("adb connect failed" ++ (if output = "" then "" else ": " ++ output))]
    else
      [Effect.showInfo (jsOr output ("Connected to " ++ endpoint ++ "."))])

/-- The timeout warning of the scan phase. -/
def scanTimeoutMsg : String :=
  "QR pairing timed out. Scan the QR code again and retry."

/-- Status message once a scan is detected. -/
def scanDetectedMsg : String := "QR scan detected. Pairing with device..."

/-- Status message after a successful pair call. -/
def pairSuccessStatusMsg : String :=
  "Pairing successful. Waiting for connection endpoint..."

/-- The informational partial-success message when auto-connect finds no
endpoint. -/
def pairedManualConnectMsg : String :=
  "Device paired. If it is not connected yet, tap Refresh or use Connect by IP."

/-- The error message of a failed pair call. -/
def pairFailedMsg (result : ExecResult) : String :=
  let reason := jsOr (cleanOutput result.stderr) (cleanOutput result.stdout)
  "adb pair failed" ++ (if reason = "" then "" else ": " ++ reason)

/-- How one run of `connectByQrCode` ends. -/
inductive QrOutcome where
  | cancelled
  | timedOut
  | pairFailed
  | pairedManualConnect
  | connected
deriving DecidableEq

/-- The environment script of one `connectByQrCode` run: the random byte
streams, the poll rounds of both loops, the results of the external pair
and connect calls, and the session-activity values read at each of the four
explicit `isQrSessionActive` checkpoints of the source. -/
structure QrScript where
  bytes1 : Nat → Nat
  bytes2 : Nat → Nat
  snapshotServices : List MdnsService
  pairRounds : List PollRound
  activeAfterScan : Bool
  pairResult : ExecResult
  activeAfterPair : Bool
  connectRounds : List PollRound
  activeAtFinalCheck : Bool
  finalServices : List MdnsService
  activeAfterConnectWait : Bool
  connectResult : ExecResult

/-- The pre-pairing snapshot: endpoints of the connect-type services seen
by the initial listing. -/
def connectKnown (sc : QrScript) : List String :=
  (sc.snapshotServices.filter isConnectType).map (fun s => s.endpoint)

/-- The body of `connectByQrCode` after the session is installed: snapshot
listing, scan loop, pair call, connect-discovery loop and connect call,
with the source's cancellation checks between the phases.  Returns the
outcome and the ordered effect trace. -/
def connectByQrCode (sc : QrScript) : QrOutcome × List Effect :=
  let pairServiceName := mkPairServiceName sc.bytes1
  let pairCode := mkPairCode sc.bytes2
  let payload := qrPayload pairServiceName pairCode
  let scan := waitForPairingEndpoint pairServiceName sc.pairRounds
  let tr1 :=
    Effect.publish
      { payload := payload, pairServiceName := pairServiceName,
        pairCode := pairCode, statusMessage := scanPromptMsg } ::
    Effect.exec ["mdns", "services"] :: scan.2
  if !sc.activeAfterScan then (QrOutcome.cancelled, tr1)
  else
    match scan.1 with
    | none =>
      (QrOutcome.timedOut,
       tr1 ++ [Effect.showWarning scanTimeoutMsg, Effect.clearPublished])
    | some pairingEndpoint =>
      let tr2 := tr1 ++ [Effect.updateStatus scanDetectedMsg,
                         Effect.exec ["pair", pairingEndpoint, pairCode]]
      if !sc.activeAfterPair then (QrOutcome.cancelled, tr2)
      else if sc.pairResult.code ≠ 0 then
        (QrOutcome.pairFailed,
         tr2 ++ [Effect.showError (pairFailedMsg sc.pairResult),
                 Effect.clearPublished])
      else
        let tr3 := tr2 ++
          [Effect.showInfo (jsOr (cleanOutput sc.pairResult.stdout)
              "Pairing succeeded."),
           Effect.updateStatus pairSuccessStatusMsg]
        let conn := waitForConnectEndpoint (connectKnown sc) sc.connectRounds
          sc.activeAtFinalCheck sc.finalServices
        let tr4 := tr3 ++ conn.2
        if !sc.activeAfterConnectWait then (QrOutcome.cancelled, tr4)
        else
          match conn.1 with
          | none =>
            (QrOutcome.pairedManualConnect,
             tr4 ++ [Effect.showInfo pairedManualConnectMsg,
                     Effect.clearPublished])
          | some connectEndpoint =>
            (QrOutcome.connected,
             tr4 ++ Effect.updateStatus
                 ("Connecting to " ++ connectEndpoint ++ "...") ::
               (runAdbConnect connectEndpoint sc.connectResult ++
                 [Effect.clearPublished]))

/-! ### Session-invariant theorem (C1) -/

/-- C1: starting a QR session while one is active first sets the prior
session's cancelled flag and clears its published state — both strictly
before credential generation — and afterwards exactly the new session is
active.  Moreover every representable controller state (hence every state
reachable by any sequence of orchestrator calls) has at most one active
session. -/
theorem qr_single_active_session (st : SessionsState) (old : Nat)
    (b1 b2 : Nat → Nat) (h : st.current = some old) :
    (startQrSession st b1 b2).2
      = [Effect.setCancelled old, Effect.clearPublished,
         Effect.genCredentials, Effect.publish (initialQrPairingState b1 b2)]
    ∧ (∀ s, IsActive (startQrSession st b1 b2).1 s ↔ s = st.nextId)
    ∧ (∀ st' : SessionsState, ∀ s t, IsActive st' s → IsActive st' t → s = t) := by
  refine ⟨?_, ?_, ?_⟩
  · unfold startQrSession cancelQrPairing
    rw [h]
    simp
  · intro s
    unfold startQrSession cancelQrPairing IsActive
    rw [h]
    simp only [Option.isSome_some, if_true]
    constructor
    · rintro ⟨hcur, _⟩
      exact (Option.some.inj hcur).symm
    · rintro rfl
      exact ⟨rfl, by simp⟩
  · rintro st' s t ⟨hs1, _⟩ ⟨ht1, _⟩
    exact Option.some.inj (hs1 ▸ ht1)

/-- A concrete controller state with an active session `0`. -/
def sampleSessions : SessionsState :=
  { nextId := 1, flags := fun _ => false, current := some 0, published := none }

theorem qr_single_active_session_witness :
    (startQrSession sampleSessions (fun _ => 0) (fun _ => 0)).2
      = [Effect.setCancelled 0, Effect.clearPublished, Effect.genCredentials,
         Effect.publish (initialQrPairingState (fun _ => 0) (fun _ => 0))]
    ∧ (IsActive (startQrSession sampleSessions (fun _ => 0) (fun _ => 0)).1 1
        ↔ 1 = 1) :=
  ⟨(qr_single_active_session sampleSessions 0 _ _ rfl).1,
   (qr_single_active_session sampleSessions 0 _ _ rfl).2.1 1⟩

/-! ### Trace-shape lemmas for the polling loops -/

theorem waitForPairingEndpoint_trace (name : String) (rounds : List PollRound) :
    ∀ e ∈ (waitForPairingEndpoint name rounds).2,
      e = Effect.exec ["mdns", "services"] := by
  induction rounds with
  | nil =>
    intro e he
    simp [waitForPairingEndpoint] at he
  | cons r rest ih =>
    intro e he
    unfold waitForPairingEndpoint at he
    by_cases ha : r.active = true
    · rw [if_pos ha] at he
      cases hf : findPairingService name r.services with
      | some s =>
        rw [hf] at he
        simpa using he
      | none =>
        rw [hf] at he
        rcases List.mem_cons.mp he with h1 | h1
        · exact h1
        · exact ih e h1
    · rw [if_neg ha] at he
      simp at he

theorem connectPollRounds_trace (known : List String) (rounds : List PollRound) :
    ∀ e ∈ (connectPollRounds known rounds).2,
      e = Effect.exec ["mdns", "services"] := by
  induction rounds with
  | nil =>
    intro e he
    simp [connectPollRounds] at he
  | cons r rest ih =>
    intro e he
    unfold connectPollRounds at he
    by_cases ha : r.active = true
    · rw [if_pos ha] at he
      cases hf : (r.services.filter isConnectType).find?
          (fun s => !(known.contains s.endpoint)) with
      | some s =>
        rw [hf] at he
        simpa using he
      | none =>
        rw [hf] at he
        rcases List.mem_cons.mp he with h1 | h1
        · exact h1
        · exact ih e h1
    · rw [if_neg ha] at he
      simp at he

theorem waitForConnectEndpoint_trace (known : List String)
    (rounds : List PollRound) (activeAtFinalCheck : Bool)
    (finalServices : List MdnsService) :
    ∀ e ∈ (waitForConnectEndpoint known rounds activeAtFinalCheck
        finalServices).2,
      e = Effect.exec ["mdns", "services"] := by
  intro e he
  unfold waitForConnectEndpoint at he
  have htr := connectPollRounds_trace known rounds
  cases hex : (connectPollRounds known rounds).1 with
  | found ep =>
    simp only [hex] at he
    exact htr e he
  | cancelled =>
    simp only [hex] at he
    exact htr e he
  | deadline =>
    simp only [hex] at he
    by_cases hact : activeAtFinalCheck = true
    · rw [if_pos hact] at he
      cases hfl : finalServices.filter isConnectType with
      | nil =>
        rw [hfl] at he
        rcases List.mem_append.mp he with h1 | h1
        · exact htr e h1
        · simpa using h1
      | cons s t =>
        rw [hfl] at he
        cases t with
        | nil =>
          rcases List.mem_append.mp he with h1 | h1
          · exact htr e h1
          · simpa using h1
        | cons s' t' =>
          rcases List.mem_append.mp he with h1 | h1
          · exact htr e h1
          · simpa using h1
    · rw [if_neg hact] at he
      exact htr e he

/-! ### Cancellation theorem (C2) -/

theorem waitForPairingEndpoint_none_of_cancel (name : String)
    (pre : List PollRound) (r : PollRound) (rest : List PollRound)
    (hpre : ∀ p ∈ pre, p.active = true →
      findPairingService name p.services = none)
    (hr : r.active = false) :
    (waitForPairingEndpoint name (pre ++ r :: rest)).1 = none := by
  induction pre with
  | nil =>
    show (waitForPairingEndpoint name (r :: rest)).1 = none
    unfold waitForPairingEndpoint
    rw [if_neg (by simp [hr])]
  | cons p pre' ih =>
    show (waitForPairingEndpoint name (p :: (pre' ++ r :: rest))).1 = none
    by_cases hp : p.active = true
    · have hfind := hpre p (List.mem_cons_self ..) hp
      unfold waitForPairingEndpoint
      rw [if_pos hp, hfind]
      exact ih (fun x hx hax => hpre x (List.mem_cons_of_mem _ hx) hax)
    · unfold waitForPairingEndpoint
      rw [if_neg hp]

/-- C2: a QR session that is cancelled or superseded before a matching
pairing service is acted on never reaches the pair invocation: once the
loop observes cancellation it returns no endpoint, and the session-active
check between the poll result and the pair call keeps `pair` out of the
effect trace. -/
theorem cancelled_session_never_pairs :
    (∀ sc : QrScript, sc.activeAfterScan = false →
      ∀ rest, Effect.exec ("pair" :: rest) ∉ (connectByQrCode sc).2)
  ∧ (∀ pairServiceName : String, ∀ pre : List PollRound, ∀ r rest,
      (∀ p ∈ pre, p.active = true →
        findPairingService pairServiceName p.services = none) →
      r.active = false →
      (waitForPairingEndpoint pairServiceName (pre ++ r :: rest)).1 = none) := by
  constructor
  · intro sc h rest hmem
    unfold connectByQrCode at hmem
    rw [h] at hmem
    simp only [Bool.not_false, if_true, List.mem_cons] at hmem
    rcases hmem with h1 | h1 | h1
    · exact Effect.noConfusion h1
    · injection h1 with h2
      injection h2 with h3
      exact absurd h3 (by decide)
    · have := waitForPairingEndpoint_trace _ _ _ h1
      injection this with h2
      injection h2 with h3
      exact absurd h3 (by decide)
  · exact waitForPairingEndpoint_none_of_cancel

/-- A script whose session is inactive at the post-scan check. -/
def cancelledScript : QrScript :=
  { bytes1 := fun _ => 0, bytes2 := fun _ => 0,
    snapshotServices := [], pairRounds := [], activeAfterScan := false,
    pairResult := { stdout := "", stderr := "", code := 0 },
    activeAfterPair := false, connectRounds := [], activeAtFinalCheck := false,
    finalServices := [], activeAfterConnectWait := false,
    connectResult := { stdout := "", stderr := "", code := 0 } }

theorem cancelled_session_never_pairs_witness :
    (Effect.exec ["pair", "192.168.1.50:37123", "WXYZWXYZWXYZ"]
        ∉ (connectByQrCode cancelledScript).2)
    ∧ (waitForPairingEndpoint "studio-aaaaaaaa"
        [{ active := false, services := [] }]).1 = none :=
  ⟨cancelled_session_never_pairs.1 cancelledScript rfl
      ["192.168.1.50:37123", "WXYZWXYZWXYZ"],
   cancelled_session_never_pairs.2 "studio-aaaaaaaa" []
      { active := false, services := [] } [] (by simp) rfl⟩

/-! ### Scan-timeout theorem (C4) -/

theorem waitForPairingEndpoint_none_of_timeout (name : String)
    (rounds : List PollRound)
    (h : ∀ r ∈ rounds, r.active = true ∧
      findPairingService name r.services = none) :
    (waitForPairingEndpoint name rounds).1 = none := by
  induction rounds with
  | nil => rfl
  | cons r rest ih =>
    obtain ⟨ha, hf⟩ := h r (List.mem_cons_self ..)
    unfold waitForPairingEndpoint
    rw [if_pos ha, hf]
    exact ih (fun x hx => h x (List.mem_cons_of_mem _ hx))

/-- C4: when every scan round is active yet finds no pairing service whose
instance name matches the generated one, the run ends timed-out: the trace
shows the retry warning and the cleared published state, and contains no
pair invocation. -/
theorem scan_timeout_no_pair (sc : QrScript)
    (hrounds : ∀ r ∈ sc.pairRounds, r.active = true ∧
      findPairingService (mkPairServiceName sc.bytes1) r.services = none)
    (hactive : sc.activeAfterScan = true) :
    (connectByQrCode sc).1 = QrOutcome.timedOut
    ∧ Effect.showWarning scanTimeoutMsg ∈ (connectByQrCode sc).2
    ∧ Effect.clearPublished ∈ (connectByQrCode sc).2
    ∧ ∀ rest, Effect.exec ("pair" :: rest) ∉ (connectByQrCode sc).2 := by
  have hnone := waitForPairingEndpoint_none_of_timeout _ _ hrounds
  have hred : connectByQrCode sc
      = (QrOutcome.timedOut,
         (Effect.publish (initialQrPairingState sc.bytes1 sc.bytes2) ::
          Effect.exec ["mdns", "services"] ::
          (waitForPairingEndpoint (mkPairServiceName sc.bytes1)
            sc.pairRounds).2) ++
          [Effect.showWarning scanTimeoutMsg, Effect.clearPublished]) := by
    unfold connectByQrCode
    simp only [hactive, hnone, Bool.not_true]
    rfl
  rw [hred]
  refine ⟨rfl, by simp, by simp, ?_⟩
  intro rest hmem
  simp only [List.mem_append, List.mem_cons] at hmem
  rcases hmem with (h1 | h1 | h1) | (h1 | h1 | h1)
  · exact Effect.noConfusion h1
  · injection h1 with h2
    injection h2 with h3
    exact absurd h3 (by decide)
  · have := waitForPairingEndpoint_trace _ _ _ h1
    injection this with h2
    injection h2 with h3
    exact absurd h3 (by decide)
  · exact Effect.noConfusion h1
  · exact Effect.noConfusion h1
  · simp at h1

/-- A script whose scan rounds are all active and matchless. -/
def timeoutScript : QrScript :=
  { bytes1 := fun _ => 0, bytes2 := fun _ => 0,
    snapshotServices := [],
    pairRounds := [{ active := true, services := [] },
                   { active := true, services := [] }],
    activeAfterScan := true,
    pairResult := { stdout := "", stderr := "", code := 0 },
    activeAfterPair := true, connectRounds := [], activeAtFinalCheck := true,
    finalServices := [], activeAfterConnectWait := true,
    connectResult := { stdout := "", stderr := "", code := 0 } }

theorem scan_timeout_no_pair_witness :
    (connectByQrCode timeoutScript).1 = QrOutcome.timedOut
    ∧ Effect.showWarning scanTimeoutMsg ∈ (connectByQrCode timeoutScript).2 :=
  ⟨(scan_timeout_no_pair timeoutScript (by decide) rfl).1,
   (scan_timeout_no_pair timeoutScript (by decide) rfl).2.1⟩

/-! ### Connect-endpoint selection theorem (C3) -/

theorem connectPollRounds_deadline (known : List String)
    (rounds : List PollRound)
    (h : ∀ p ∈ rounds, p.active = true ∧
      (p.services.filter isConnectType).find?
        (fun s => !(known.contains s.endpoint)) = none) :
    (connectPollRounds known rounds).1 = LoopExit.deadline := by
  induction rounds with
  | nil => rfl
  | cons r rest ih =>
    obtain ⟨ha, hf⟩ := h r (List.mem_cons_self ..)
    unfold connectPollRounds
    rw [if_pos ha, hf]
    exact ih (fun x hx => h x (List.mem_cons_of_mem _ hx))

theorem connectPollRounds_found (known : List String) (pre : List PollRound)
    (r : PollRound) (rest : List PollRound) (s : MdnsService)
    (hpre : ∀ p ∈ pre, p.active = true ∧
      (p.services.filter isConnectType).find?
        (fun x => !(known.contains x.endpoint)) = none)
    (hr : r.active = true)
    (hs : (r.services.filter isConnectType).find?
      (fun x => !(known.contains x.endpoint)) = some s) :
    (connectPollRounds known (pre ++ r :: rest)).1
      = LoopExit.found s.endpoint := by
  induction pre with
  | nil =>
    show (connectPollRounds known (r :: rest)).1 = _
    unfold connectPollRounds
    rw [if_pos hr, hs]
  | cons p pre' ih =>
    obtain ⟨hp, hpf⟩ := hpre p (List.mem_cons_self ..)
    show (connectPollRounds known (p :: (pre' ++ r :: rest))).1 = _
    unfold connectPollRounds
    rw [if_pos hp, hpf]
    exact ih (fun x hx => hpre x (List.mem_cons_of_mem _ hx))

theorem no_showError_of_all_exec (tr : List Effect)
    (h : ∀ e ∈ tr, e = Effect.exec ["mdns", "services"]) :
    ∀ m, Effect.showError m ∉ tr := by
  intro m hm
  exact Effect.noConfusion (h _ hm)

/-- C3: in the auto-connect discovery phase the chosen endpoint is the first
connect-type endpoint observed that is not in the pre-pairing snapshot; when
the deadline elapses with no such endpoint, the final listing's endpoint is
used exactly when it contains exactly one connect-type service; otherwise no
endpoint is returned and the run concludes with the informational
"paired, connect manually" message, never an error. -/
theorem connect_endpoint_selection :
    (∀ known pre r rest activeAtFinalCheck finalServices s,
      (∀ p ∈ pre, p.active = true ∧
        (p.services.filter isConnectType).find?
          (fun x => !(known.contains x.endpoint)) = none) →
      r.active = true →
      (r.services.filter isConnectType).find?
        (fun x => !(known.contains x.endpoint)) = some s →
      (waitForConnectEndpoint known (pre ++ r :: rest) activeAtFinalCheck
        finalServices).1 = some s.endpoint)
  ∧ (∀ known rounds finalServices s,
      (∀ p ∈ rounds, p.active = true ∧
        (p.services.filter isConnectType).find?
          (fun x => !(known.contains x.endpoint)) = none) →
      finalServices.filter isConnectType = [s] →
      (waitForConnectEndpoint known rounds true finalServices).1
        = some s.endpoint)
  ∧ (∀ known rounds finalServices,
      (∀ p ∈ rounds, p.active = true ∧
        (p.services.filter isConnectType).find?
          (fun x => !(known.contains x.endpoint)) = none) →
      (finalServices.filter isConnectType).length ≠ 1 →
      (waitForConnectEndpoint known rounds true finalServices).1 = none)
  ∧ (∀ sc : QrScript, ∀ ep,
      sc.activeAfterScan = true →
      (waitForPairingEndpoint (mkPairServiceName sc.bytes1) sc.pairRounds).1
        = some ep →
      sc.activeAfterPair = true →
      sc.pairResult.code = 0 →
      (waitForConnectEndpoint (connectKnown sc) sc.connectRounds
        sc.activeAtFinalCheck sc.finalServices).1 = none →
      sc.activeAfterConnectWait = true →
      (connectByQrCode sc).1 = QrOutcome.pairedManualConnect
      ∧ Effect.showInfo pairedManualConnectMsg ∈ (connectByQrCode sc).2
      ∧ ∀ m, Effect.showError m ∉ (connectByQrCode sc).2) := by
  refine ⟨?_, ?_, ?_, ?_⟩
  · intro known pre r rest activeAtFinalCheck finalServices s hpre hr hs
    unfold waitForConnectEndpoint
    rw [connectPollRounds_found known pre r rest s hpre hr hs]
  · intro known rounds finalServices s h hfl
    unfold waitForConnectEndpoint
    rw [connectPollRounds_deadline known rounds h, hfl]
    rfl
  · intro known rounds finalServices h hlen
    unfold waitForConnectEndpoint
    rw [connectPollRounds_deadline known rounds h]
    cases hfl : finalServices.filter isConnectType with
    | nil => rfl
    | cons a t =>
      cases t with
      | nil =>
        rw [hfl] at hlen
        simp at hlen
      | cons b t' => rfl
  · intro sc ep h1 hscan h2 h3 hconnNone h4
    have hred : connectByQrCode sc
        = (QrOutcome.pairedManualConnect,
           ((Effect.publish (initialQrPairingState sc.bytes1 sc.bytes2) ::
             Effect.exec ["mdns", "services"] ::
             (waitForPairingEndpoint (mkPairServiceName sc.bytes1)
               sc.pairRounds).2) ++
            [Effect.updateStatus scanDetectedMsg,
             Effect.exec ["pair", ep, mkPairCode sc.bytes2]] ++
            [Effect.showInfo (jsOr (cleanOutput sc.pairResult.stdout)
                "Pairing succeeded."),
             Effect.updateStatus pairSuccessStatusMsg] ++
            (waitForConnectEndpoint (connectKnown sc) sc.connectRounds
              sc.activeAtFinalCheck sc.finalServices).2 ++
            [Effect.showInfo pairedManualConnectMsg,
             Effect.clearPublished])) := by
      unfold connectByQrCode
      simp only [h1, hscan, h2, h3, hconnNone, h4, Bool.not_true]
      simp [initialQrPairingState, List.append_assoc]
    rw [hred]
    refine ⟨rfl, by simp, ?_⟩
    intro m hmem
    rcases List.mem_append.mp hmem with h5 | h5
    · rcases List.mem_append.mp h5 with h5 | h5
      · rcases List.mem_append.mp h5 with h5 | h5
        · rcases List.mem_append.mp h5 with h5 | h5
          · rcases List.mem_cons.mp h5 with h6 | h5
            · exact Effect.noConfusion h6
            rcases List.mem_cons.mp h5 with h6 | h5
            · exact Effect.noConfusion h6
            exact Effect.noConfusion (waitForPairingEndpoint_trace _ _ _ h5)
          · rcases List.mem_cons.mp h5 with h6 | h5
            · exact Effect.noConfusion h6
            rcases List.mem_cons.mp h5 with h6 | h5
            · exact Effect.noConfusion h6
            simp at h5
        · rcases List.mem_cons.mp h5 with h6 | h5
          · exact Effect.noConfusion h6
          rcases List.mem_cons.mp h5 with h6 | h5
          · exact Effect.noConfusion h6
          simp at h5
      · exact Effect.noConfusion (waitForConnectEndpoint_trace _ _ _ _ _ h5)
    · rcases List.mem_cons.mp h5 with h6 | h5
      · exact Effect.noConfusion h6
      rcases List.mem_cons.mp h5 with h6 | h5
      · exact Effect.noConfusion h6
      simp at h5

/-- A pre-existing (snapshotted) connect-type service. -/
def svcOld : MdnsService :=
  { instanceName := "adb-old", serviceType := "_adb-tls-connect._tcp",
    endpoint := "10.0.0.1:5555" }

/-- A connect-type service that appears only after pairing. -/
def svcNew : MdnsService :=
  { instanceName := "adb-new", serviceType := "_adb-tls-connect._tcp",
    endpoint := "10.0.0.2:5555" }

theorem connect_endpoint_selection_witness :
    (waitForConnectEndpoint ["10.0.0.1:5555"]
        [{ active := true, services := [svcOld] },
         { active := true, services := [svcOld, svcNew] }] true []).1
      = some "10.0.0.2:5555" :=
  connect_endpoint_selection.1 ["10.0.0.1:5555"]
    [{ active := true, services := [svcOld] }]
    { active := true, services := [svcOld, svcNew] } [] true [] svcNew
    (by decide) rfl (by decide)

end FlutterWise
